import Mathlib

/-!
Verification development for the sdbus-c++ convenience API layer
(`include/sdbus-c++/ConvenienceApiClasses.inl` together with the
`TypeTraits.h` header shipped alongside it).

The development shallowly embeds:

* the compile-time signature engine (`signature_of` template specializations),
* the fluent builder classes (`SignalEmitter`, `MethodInvoker`,
  `AsyncMethodInvoker`, `SignalSubscriber`) as explicit state machines whose
  externally visible commits (`IObject::emitSignal`, `IProxy::callMethod`)
  are recorded as events,
* the asynchronous reply handler and signal handler lambdas, and
* the `future_return` type-level computation backing `getResultAsFuture`.

Machine integers appear only around the `uint64_t` microsecond timeout: the
`int64_t` count produced by `std::chrono::duration_cast` (integer division
truncating toward zero) is reduced modulo 2^64 at the `uint64_t` parameter
boundary of `withTimeout`, modelled as `Int` with an explicit `% 2^64`.
-/

namespace sdbus

/-- Model of `sdbus::Error` (name plus message); the payload is irrelevant to
the claims, only identity of the propagated error object matters. -/
structure Error where
  name : String
  message : String
deriving DecidableEq

/-! ## Signature engine (TypeTraits.h)

`DBusType` enumerates the C++ types for which `signature_of` is specialized
in TypeTraits.h: the scalar leaves, `Struct<...>`, `DictEntry<K,V>`
(= `std::pair`), `std::vector` (covering `std::array`/`std::span`, which
inherit from the vector specialization), `std::map`, `std::unordered_map`
(which inherits from the map specialization) and `std::tuple<...>`.
`void` is the leaf with empty signature. -/
inductive DBusType where
  | void
  | bool
  | uint8
  | int16
  | uint16
  | int32
  | uint32
  | int64
  | uint64
  | double
  | string
  | objectPath
  | signature
  | unixFd
  | variant
  | struct (fields : List DBusType)
  | dictEntry (k v : DBusType)
  | array (elem : DBusType)
  | map (k v : DBusType)
  | unorderedMap (k v : DBusType)
  | tuple (elems : List DBusType)

mutual

/-- Size measure used to justify termination of `signature_of`: the source
specializations for `std::map` and `DictEntry` delegate to `signature_of` of
a constructed type (`DictEntry<K,V>` resp. `std::tuple<K,V>`), so the
measure gives those delegation targets strictly smaller weight. -/
def DBusType.size : DBusType → Nat
  | .struct ts => 1 + DBusType.sizeList ts
  | .dictEntry k v => 4 + k.size + v.size
  | .array e => 1 + e.size
  | .map k v => 5 + k.size + v.size
  | .unorderedMap k v => 6 + k.size + v.size
  | .tuple ts => 1 + DBusType.sizeList ts
  | _ => 1

/-- Combined size of a list of types (counts one per list node). -/
def DBusType.sizeList : List DBusType → Nat
  | [] => 0
  | t :: ts => 1 + t.size + DBusType.sizeList ts

end

mutual

/-- D-Bus signature of a type, transcribing the `signature_of`
specializations of TypeTraits.h, each `value` member read off verbatim:
scalar leaves are single codes; `Struct` is `'('` + fold of member
signatures + `')'`; `DictEntry<T1,T2>` is `'{'` + `signature_of_v<std::tuple<T1,T2>>`
+ `'}'`; `std::vector<E>` is `'a'` + signature of `E`;
`std::map<K,V>` is `'a'` + `signature_of_v<DictEntry<K,V>>`;
`std::unordered_map` inherits from the `std::map` specialization;
`std::tuple<Ts...>` is the left fold `(std::array<char,0>{} + ... + signature_of_v<Ts>)`. -/
def signature_of : DBusType → List Char
  | .void => []
  | .bool => ['b']
  | .uint8 => ['y']
  | .int16 => ['n']
  | .uint16 => ['q']
  | .int32 => ['i']
  | .uint32 => ['u']
  | .int64 => ['x']
  | .uint64 => ['t']
  | .double => ['d']
  | .string => ['s']
  | .objectPath => ['o']
  | .signature => ['g']
  | .unixFd => ['h']
  | .variant => ['v']
  | .struct ts => '(' :: (sigContents ts ++ [')'])
  | .dictEntry k v => '{' :: (signature_of (.tuple [k, v]) ++ ['}'])
  | .array e => 'a' :: signature_of e
  | .map k v => 'a' :: signature_of (.dictEntry k v)
  | .unorderedMap k v => signature_of (.map k v)
  | .tuple ts => sigFoldl [] ts
termination_by t => t.size
decreasing_by
  all_goals simp [DBusType.size, DBusType.sizeList]
  all_goals omega

/-- Contents of a `Struct` signature: the C++ unary right fold
`(signature_of_v<_ValueTypes> + ...)` over a nonempty parameter pack;
extended to the empty list by the empty signature. -/
def sigContents : List DBusType → List Char
  | [] => []
  | t :: ts => signature_of t ++ sigContents ts
termination_by ts => DBusType.sizeList ts
decreasing_by
  all_goals simp [DBusType.size, DBusType.sizeList]
  all_goals omega

/-- Left fold with empty initial array, transcribing the C++ binary left fold
`(std::array<char, 0>{} + ... + signature_of_v<_Types>)` of the
`std::tuple` specialization. -/
def sigFoldl : List Char → List DBusType → List Char
  | acc, [] => acc
  | acc, t :: ts => sigFoldl (acc ++ signature_of t) ts
termination_by _ ts => DBusType.sizeList ts
decreasing_by
  all_goals simp [DBusType.size, DBusType.sizeList]
  all_goals omega

end

/-- Validity flag of each `signature_of` specialization: every leaf and
container specialization in TypeTraits.h declares `is_valid = true`; the
`std::tuple` specialization alone declares `is_valid = false`. -/
def is_valid : DBusType → Bool
  | .tuple _ => false
  | _ => true

/-- Plain right-to-left concatenation of the element signatures, used as the
specification-side notion of *concatenation of signature(Ai)*. -/
def concatSignatures : List DBusType → List Char
  | [] => []
  | t :: ts => signature_of t ++ concatSignatures ts

/-- signature_of_function_input_arguments<F> of TypeTraits.h inherits from
`signature_of<tuple_of_function_input_arg_types_t<F>>`, i.e. the signature of
the tuple of the callback's decayed argument types. -/
def signature_of_function_input_arguments (argTypes : List DBusType) : List Char :=
  signature_of (.tuple argTypes)

/-- signature_of_function_output_arguments<F> of TypeTraits.h inherits from
`signature_of<tuple_of_function_output_arg_types_t<F>>`, the signature of the
function result tuple. -/
def signature_of_function_output_arguments (resultTypes : List DBusType) : List Char :=
  signature_of (.tuple resultTypes)

theorem sigFoldl_eq_append (ts : List DBusType) (acc : List Char) :
    sigFoldl acc ts = acc ++ concatSignatures ts := by
  induction ts generalizing acc with
  | nil => simp [sigFoldl, concatSignatures]
  | cons t ts ih => simp [sigFoldl, concatSignatures, ih, List.append_assoc]

theorem tuple_signature_eq_concat (ts : List DBusType) :
    signature_of (.tuple ts) = concatSignatures ts := by
  simp [signature_of, sigFoldl_eq_append]

end sdbus

/-- C5: for every argument type list A1..An, the derived signature of the
argument list (the signature of `std::tuple<A1,...,An>`, used for function
input and output argument signatures) equals the concatenation
`signature(A1) ++ ... ++ signature(An)` with no enclosing parentheses, and
for the empty list it is the empty sequence. -/
theorem C5_argument_list_signature_is_flat_concatenation :
    (∀ ts : List sdbus.DBusType,
        sdbus.signature_of_function_input_arguments ts = sdbus.concatSignatures ts)
  ∧ sdbus.signature_of_function_input_arguments [] = []
  ∧ (∀ ts : List sdbus.DBusType,
        sdbus.signature_of_function_output_arguments ts = sdbus.concatSignatures ts) := by
  refine ⟨fun ts => ?_, ?_, fun ts => ?_⟩
  · simp [sdbus.signature_of_function_input_arguments, sdbus.tuple_signature_eq_concat]
  · simp [sdbus.signature_of_function_input_arguments, sdbus.tuple_signature_eq_concat,
      sdbus.concatSignatures]
  · simp [sdbus.signature_of_function_output_arguments, sdbus.tuple_signature_eq_concat]

/-- C6: for every key type K and value type V,
`signature(map<K,V>) = 'a' ++ '{' ++ signature(K) ++ signature(V) ++ '}'`;
in particular `signature(std::map<std::string, Variant>)` is exactly `a{sv}`,
and `std::unordered_map` derives the same signature as `std::map`. -/
theorem C6_map_signature :
    (∀ k v : sdbus.DBusType,
        sdbus.signature_of (.map k v)
          = 'a' :: '{' :: (sdbus.signature_of k ++ (sdbus.signature_of v ++ ['}'])))
  ∧ sdbus.signature_of (.map .string .variant) = ['a', '{', 's', 'v', '}']
  ∧ (∀ k v : sdbus.DBusType,
        sdbus.signature_of (.unorderedMap k v) = sdbus.signature_of (.map k v)) := by
  have hmap : ∀ k v : sdbus.DBusType,
      sdbus.signature_of (.map k v)
        = 'a' :: '{' :: (sdbus.signature_of k ++ (sdbus.signature_of v ++ ['}'])) := by
    intro k v
    show sdbus.signature_of (sdbus.DBusType.map k v) = _
    rw [sdbus.signature_of, sdbus.signature_of, sdbus.tuple_signature_eq_concat]
    simp [sdbus.concatSignatures, List.append_assoc]
  refine ⟨hmap, ?_, fun k v => ?_⟩
  · rw [hmap]
    simp [sdbus.signature_of]
  · simp [sdbus.signature_of]

/-- C9: for every element type list, `signature_of<std::tuple<...>>` has
`is_valid = false` even though its signature value is the concatenation of
the element signatures, unlike every leaf and container specialization,
whose `is_valid` is `true`. -/
theorem C9_tuple_not_valid_despite_flat_signature :
    (∀ ts : List sdbus.DBusType,
        sdbus.is_valid (.tuple ts) = false
      ∧ sdbus.signature_of (.tuple ts) = sdbus.concatSignatures ts)
  ∧ sdbus.is_valid .void = true
  ∧ sdbus.is_valid .bool = true
  ∧ sdbus.is_valid .uint8 = true
  ∧ sdbus.is_valid .int16 = true
  ∧ sdbus.is_valid .uint16 = true
  ∧ sdbus.is_valid .int32 = true
  ∧ sdbus.is_valid .uint32 = true
  ∧ sdbus.is_valid .int64 = true
  ∧ sdbus.is_valid .uint64 = true
  ∧ sdbus.is_valid .double = true
  ∧ sdbus.is_valid .string = true
  ∧ sdbus.is_valid .objectPath = true
  ∧ sdbus.is_valid .signature = true
  ∧ sdbus.is_valid .unixFd = true
  ∧ sdbus.is_valid .variant = true
  ∧ (∀ fields : List sdbus.DBusType, sdbus.is_valid (.struct fields) = true)
  ∧ (∀ k v : sdbus.DBusType, sdbus.is_valid (.dictEntry k v) = true)
  ∧ (∀ e : sdbus.DBusType, sdbus.is_valid (.array e) = true)
  ∧ (∀ k v : sdbus.DBusType, sdbus.is_valid (.map k v) = true)
  ∧ (∀ k v : sdbus.DBusType, sdbus.is_valid (.unorderedMap k v) = true) := by
  refine ⟨fun ts => ⟨rfl, sdbus.tuple_signature_eq_concat ts⟩,
    rfl, rfl, rfl, rfl, rfl, rfl, rfl, rfl, rfl, rfl, rfl, rfl, rfl, rfl, rfl,
    fun _ => rfl, fun _ _ => rfl, fun _ => rfl, fun _ _ => rfl, fun _ _ => rfl⟩

namespace sdbus

/-! ## Builder state machines (ConvenienceApiClasses.inl)

Each builder is modelled as a structure holding the data members of the C++
class that the claims depend on, together with one function per member
function.  Externally visible commits (`IObject::emitSignal`,
`IProxy::callMethod`) are recorded as explicit events; `std::uncaught_exceptions()`
is passed in as an explicit natural number wherever the source reads it.

Message validity is not decided by code under src/: `Signal`/`MethodCall`
come from Message.h and `createSignal`/`createMethodCall` from
IObject.h/IProxy.h.  Modelled from the spec: a default-constructed message is
invalid ("if `onInterface` was not called, the Message is invalid and commit
fails") and a message produced by `createSignal`/`createMethodCall` is valid. -/

/-- Commit event of a `SignalEmitter`: the `object_.emitSignal(signal_)` call. -/
inductive SignalCommit where
  | emitSignal
deriving DecidableEq

/-- Commit event of a `MethodInvoker`: a `proxy_.callMethod(method_, timeout_)`
call, recording the timeout it was issued with. -/
inductive MethodCommit where
  | callMethod (timeout : Int)
deriving DecidableEq

/-- `std::chrono::duration_cast<std::chrono::microseconds>` applied to a
duration of `count` ticks of period `num/den` seconds: integer conversion
truncating toward zero (C++ integer division), i.e. `count * num * 10^6 / den`
with truncated division. -/
def durationToMicroseconds (count num den : Int) : Int :=
  (count * num * 1000000).tdiv den

/-- Modulus of the `uint64_t` type: 2^64. -/
def uint64Mod : Int := 18446744073709551616

/-- Integer conversion of a signed microsecond count (`microsecs.count()`,
an `int64_t`) to the `uint64_t usec` parameter of `withTimeout`: C++
converts between integer types by reduction modulo 2^64, so negative
counts wrap to large unsigned values. -/
def toUInt64Wrap (x : Int) : Int :=
  x % uint64Mod

/-! ### SignalEmitter -/

/-- State of a `SignalEmitter`: the signal name, whether `signal_` holds a
valid signal message, and the `std::uncaught_exceptions()` count recorded by
the constructor into `exceptions_`. -/
structure SignalEmitter where
  signalName : String
  signalValid : Bool
  exceptions : Nat

/-- SignalEmitter constructor: stores the signal name and records the current
in-flight exception count; `signal_` starts as a default (invalid) message. -/
def SignalEmitter.construct (signalName : String) (uncaughtExceptions : Nat) : SignalEmitter :=
  { signalName := signalName, signalValid := false, exceptions := uncaughtExceptions }

/-- SignalEmitter::onInterface: `signal_ = object_.createSignal(interfaceName, signalName_)`,
making the stored message valid. -/
def SignalEmitter.onInterface (e : SignalEmitter) (_interfaceName : String) : SignalEmitter :=
  { e with signalValid := true }

/-- Assertion guarding SignalEmitter::withArguments: `assert(signal_.isValid())`. -/
def SignalEmitter.withArgumentsAssert (e : SignalEmitter) : Bool :=
  e.signalValid

/-- SignalEmitter::withArguments serializes the arguments into the message;
none of the modelled data members change. -/
def SignalEmitter.withArguments (e : SignalEmitter) : SignalEmitter :=
  e

/-- SignalEmitter destructor: returns the list of emissions it performs.
Transcribing the source: if `std::uncaught_exceptions() != exceptions_` it
returns without emitting, otherwise it calls `object_.emitSignal(signal_)`. -/
def SignalEmitter.destruct (e : SignalEmitter) (uncaughtExceptions : Nat) : List SignalCommit :=
  if uncaughtExceptions != e.exceptions then []
  else [SignalCommit.emitSignal]

/-- Intermediate member-function calls on a `SignalEmitter`. -/
inductive SEStep where
  | onInterface (interfaceName : String)
  | withArguments
deriving DecidableEq

/-- Apply one member-function call to a `SignalEmitter`. -/
def SignalEmitter.step (e : SignalEmitter) : SEStep → SignalEmitter
  | .onInterface i => e.onInterface i
  | .withArguments => e.withArguments

/-- Run a sequence of member-function calls on a `SignalEmitter`. -/
def SignalEmitter.runSteps (e : SignalEmitter) : List SEStep → SignalEmitter
  | [] => e
  | s :: ss => SignalEmitter.runSteps (e.step s) ss

theorem SignalEmitter.step_exceptions_emitter (e : SignalEmitter) (s : SEStep) :
    (e.step s).exceptions = e.exceptions := by
  cases s <;> rfl

theorem SignalEmitter.runSteps_exceptions_emitter (steps : List SEStep) (e : SignalEmitter) :
    (e.runSteps steps).exceptions = e.exceptions := by
  induction steps generalizing e with
  | nil => rfl
  | cons s ss ih => rw [SignalEmitter.runSteps, ih, SignalEmitter.step_exceptions_emitter]

/-! ### MethodInvoker -/

/-- State of a `MethodInvoker`: method name, validity of `method_`, the
`methodCalled_` flag, the recorded `exceptions_` count, and `timeout_`.
The `timeout_{}` default member initializer (zero) comes from the class
declaration in ConvenienceApiClasses.h; modelled from the spec in that the
header is not under src/. -/
structure MethodInvoker where
  methodName : String
  methodValid : Bool
  methodCalled : Bool
  exceptions : Nat
  timeout : Int

/-- MethodInvoker constructor: stores the method name, records
`std::uncaught_exceptions()`; `method_` starts as a default (invalid)
message, `methodCalled_` false, `timeout_` zero. -/
def MethodInvoker.construct (methodName : String) (uncaughtExceptions : Nat) : MethodInvoker :=
  { methodName := methodName
    methodValid := false
    methodCalled := false
    exceptions := uncaughtExceptions
    timeout := 0 }

/-- MethodInvoker::onInterface: `method_ = proxy_.createMethodCall(...)`,
making the stored message valid. -/
def MethodInvoker.onInterface (m : MethodInvoker) (_interfaceName : String) : MethodInvoker :=
  { m with methodValid := true }

/-- MethodInvoker::withTimeout(uint64_t usec): `timeout_ = usec`.  The
parameter has type `uint64_t`, so the argument supplied by the caller (in
particular the `int64_t` microsecond count from the chrono overload) is
reduced modulo 2^64 at the parameter boundary. -/
def MethodInvoker.withTimeout (m : MethodInvoker) (usec : Int) : MethodInvoker :=
  { m with timeout := toUInt64Wrap usec }

/-- MethodInvoker::withTimeout(chrono duration): converts with
`duration_cast<microseconds>` and delegates to the `uint64_t` overload. -/
def MethodInvoker.withTimeoutChrono (m : MethodInvoker) (count num den : Int) : MethodInvoker :=
  m.withTimeout (durationToMicroseconds count num den)

/-- Assertion guarding MethodInvoker::withArguments: `assert(method_.isValid())`. -/
def MethodInvoker.withArgumentsAssert (m : MethodInvoker) : Bool :=
  m.methodValid

/-- MethodInvoker::withArguments serializes into the message; no modelled
data member changes. -/
def MethodInvoker.withArguments (m : MethodInvoker) : MethodInvoker :=
  m

/-- Assertion guarding MethodInvoker::storeResultsTo: `assert(method_.isValid())`. -/
def MethodInvoker.storeResultsToAssert (m : MethodInvoker) : Bool :=
  m.methodValid

/-- MethodInvoker::storeResultsTo: calls `proxy_.callMethod(method_, timeout_)`,
sets `methodCalled_ = true`, and deserializes the reply into the supplied
references.  Returns the new state and the commit event. -/
def MethodInvoker.storeResultsTo (m : MethodInvoker) : MethodInvoker × List MethodCommit :=
  ({ m with methodCalled := true }, [MethodCommit.callMethod m.timeout])

/-- Assertion guarding MethodInvoker::dontExpectReply: `assert(method_.isValid())`. -/
def MethodInvoker.dontExpectReplyAssert (m : MethodInvoker) : Bool :=
  m.methodValid

/-- MethodInvoker::dontExpectReply: sets the no-reply flag on the message; no
modelled data member changes. -/
def MethodInvoker.dontExpectReply (m : MethodInvoker) : MethodInvoker :=
  m

/-- MethodInvoker destructor, transcribing the source: if `methodCalled_` is
set or `std::uncaught_exceptions() != exceptions_`, it returns without doing
anything; otherwise it calls `proxy_.callMethod(method_, timeout_)`. -/
def MethodInvoker.destruct (m : MethodInvoker) (uncaughtExceptions : Nat) : List MethodCommit :=
  if m.methodCalled || (uncaughtExceptions != m.exceptions) then []
  else [MethodCommit.callMethod m.timeout]

/-- Member-function calls on a `MethodInvoker`. -/
inductive MIStep where
  | onInterface (interfaceName : String)
  | withTimeoutUsec (usec : Int)
  | withTimeoutChrono (count num den : Int)
  | withArguments
  | dontExpectReply
  | storeResultsTo
deriving DecidableEq

/-- Apply one member-function call, returning the new state and the commit
events the call performs. -/
def MethodInvoker.step (m : MethodInvoker) : MIStep → MethodInvoker × List MethodCommit
  | .onInterface i => (m.onInterface i, [])
  | .withTimeoutUsec usec => (m.withTimeout usec, [])
  | .withTimeoutChrono c n d => (m.withTimeoutChrono c n d, [])
  | .withArguments => (m.withArguments, [])
  | .dontExpectReply => (m.dontExpectReply, [])
  | .storeResultsTo => m.storeResultsTo

/-- Run a sequence of member-function calls, accumulating commit events. -/
def MethodInvoker.runSteps (m : MethodInvoker) : List MIStep → MethodInvoker × List MethodCommit
  | [] => (m, [])
  | s :: ss =>
    ((MethodInvoker.runSteps (m.step s).1 ss).1,
      (m.step s).2 ++ (MethodInvoker.runSteps (m.step s).1 ss).2)

theorem MethodInvoker.step_exceptions (m : MethodInvoker) (s : MIStep) :
    (m.step s).1.exceptions = m.exceptions := by
  cases s <;> rfl

theorem MethodInvoker.runSteps_exceptions (steps : List MIStep) (m : MethodInvoker) :
    (MethodInvoker.runSteps m steps).1.exceptions = m.exceptions := by
  induction steps generalizing m with
  | nil => rfl
  | cons s ss ih =>
    rw [MethodInvoker.runSteps]
    rw [ih, MethodInvoker.step_exceptions]

theorem MethodInvoker.step_methodCalled (m : MethodInvoker) (s : MIStep) :
    (m.step s).1.methodCalled = true ↔ (m.methodCalled = true ∨ s = MIStep.storeResultsTo) :=
  by
  cases s <;>
    simp [MethodInvoker.step, MethodInvoker.onInterface, MethodInvoker.withTimeout,
      MethodInvoker.withTimeoutChrono, MethodInvoker.withArguments,
      MethodInvoker.dontExpectReply, MethodInvoker.storeResultsTo]

theorem MethodInvoker.runSteps_methodCalled (steps : List MIStep) (m : MethodInvoker) :
    (MethodInvoker.runSteps m steps).1.methodCalled = true
      ↔ (m.methodCalled = true ∨ MIStep.storeResultsTo ∈ steps) := by
  induction steps generalizing m with
  | nil => simp [MethodInvoker.runSteps]
  | cons s ss ih =>
    rw [MethodInvoker.runSteps]
    show (MethodInvoker.runSteps (m.step s).1 ss).1.methodCalled = true ↔ _
    rw [ih, MethodInvoker.step_methodCalled]
    constructor
    · rintro ((h | h) | h)
      · exact Or.inl h
      · exact Or.inr (by simp [h])
      · exact Or.inr (List.mem_cons_of_mem _ h)
    · rintro (h | h)
      · exact Or.inl (Or.inl h)
      · rcases List.mem_cons.mp h with h | h
        · exact Or.inl (Or.inr h.symm)
        · exact Or.inr h

end sdbus

/-- C2: for every SignalEmitter, the destructor commits the signal emission
(calls `Object::emitSignal`) exactly when the in-flight exception count at
destruction equals the count recorded at construction: with an additional
exception propagating the signal is not emitted, and without one the signal
is emitted exactly once on destruction. -/
theorem C2_signal_emitter_commits_iff_no_new_exception
    (signalName : String) (uncaughtAtCtor : Nat) (steps : List sdbus.SEStep)
    (uncaughtAtDtor : Nat) :
    let e := (sdbus.SignalEmitter.construct signalName uncaughtAtCtor).runSteps steps
    (e.destruct uncaughtAtDtor = [sdbus.SignalCommit.emitSignal]
        ↔ uncaughtAtDtor = uncaughtAtCtor)
  ∧ (e.destruct uncaughtAtDtor = [] ↔ uncaughtAtDtor ≠ uncaughtAtCtor) := by
  intro e
  have hexc : e.exceptions = uncaughtAtCtor := by
    show ((sdbus.SignalEmitter.construct signalName uncaughtAtCtor).runSteps steps).exceptions = _
    rw [sdbus.SignalEmitter.runSteps_exceptions_emitter]
    rfl
  constructor
  · rw [sdbus.SignalEmitter.destruct, hexc]
    by_cases h : uncaughtAtDtor = uncaughtAtCtor <;> simp [h]
  · rw [sdbus.SignalEmitter.destruct, hexc]
    by_cases h : uncaughtAtDtor = uncaughtAtCtor <;> simp [h]

namespace sdbus

/-! ### AsyncMethodInvoker -/

/-- State of an `AsyncMethodInvoker`: method name, validity of `method_`,
and `timeout_` (default member initializer zero, from the class declaration
in ConvenienceApiClasses.h). -/
structure AsyncMethodInvoker where
  methodName : String
  methodValid : Bool
  timeout : Int

/-- AsyncMethodInvoker constructor: stores the method name; `method_` starts
as a default (invalid) message and `timeout_` zero. -/
def AsyncMethodInvoker.construct (methodName : String) : AsyncMethodInvoker :=
  { methodName := methodName, methodValid := false, timeout := 0 }

/-- AsyncMethodInvoker::onInterface: `method_ = proxy_.createMethodCall(...)`. -/
def AsyncMethodInvoker.onInterface (a : AsyncMethodInvoker) (_interfaceName : String) :
    AsyncMethodInvoker :=
  { a with methodValid := true }

/-- AsyncMethodInvoker::withTimeout(uint64_t usec): `timeout_ = usec`.  As
for MethodInvoker, the `uint64_t` parameter reduces the caller's argument
modulo 2^64 at the parameter boundary. -/
def AsyncMethodInvoker.withTimeout (a : AsyncMethodInvoker) (usec : Int) : AsyncMethodInvoker :=
  { a with timeout := toUInt64Wrap usec }

/-- AsyncMethodInvoker::withTimeout(chrono duration): converts with
`duration_cast<microseconds>` and delegates to the `uint64_t` overload. -/
def AsyncMethodInvoker.withTimeoutChrono (a : AsyncMethodInvoker) (count num den : Int) :
    AsyncMethodInvoker :=
  a.withTimeout (durationToMicroseconds count num den)

/-- Assertion guarding AsyncMethodInvoker::withArguments: `assert(method_.isValid())`. -/
def AsyncMethodInvoker.withArgumentsAssert (a : AsyncMethodInvoker) : Bool :=
  a.methodValid

/-- Assertion guarding AsyncMethodInvoker::uponReplyInvoke: `assert(method_.isValid())`. -/
def AsyncMethodInvoker.uponReplyInvokeAssert (a : AsyncMethodInvoker) : Bool :=
  a.methodValid

/-- Member-function calls on an `AsyncMethodInvoker`; `getResultAsFuture` is
the terminal step that delegates to `uponReplyInvoke`. -/
inductive AMIStep where
  | onInterface (interfaceName : String)
  | withTimeoutUsec (usec : Int)
  | withTimeoutChrono (count num den : Int)
  | withArguments
  | uponReplyInvoke
  | getResultAsFuture
deriving DecidableEq

/-- Apply one member-function call to an `AsyncMethodInvoker`. -/
def AsyncMethodInvoker.step (a : AsyncMethodInvoker) : AMIStep → AsyncMethodInvoker
  | .onInterface i => a.onInterface i
  | .withTimeoutUsec usec => a.withTimeout usec
  | .withTimeoutChrono c n d => a.withTimeoutChrono c n d
  | .withArguments => a
  | .uponReplyInvoke => a
  | .getResultAsFuture => a

/-- Assertion tripped by a member-function call on an `AsyncMethodInvoker`
in the given state (`true` means the call has no assertion or the assertion
holds); `getResultAsFuture` asserts through its inner `uponReplyInvoke`. -/
def AsyncMethodInvoker.stepAssert (a : AsyncMethodInvoker) : AMIStep → Bool
  | .onInterface _ => true
  | .withTimeoutUsec _ => true
  | .withTimeoutChrono _ _ _ => true
  | .withArguments => a.withArgumentsAssert
  | .uponReplyInvoke => a.uponReplyInvokeAssert
  | .getResultAsFuture => a.uponReplyInvokeAssert

/-- All assertions along a call sequence on an `AsyncMethodInvoker` hold. -/
def AsyncMethodInvoker.allAsserts : AsyncMethodInvoker → List AMIStep → Bool
  | _, [] => true
  | a, s :: ss => a.stepAssert s && AsyncMethodInvoker.allAsserts (a.step s) ss

/-! ### SignalSubscriber -/

/-- State of a `SignalSubscriber`: the signal name and `interfaceName_`,
a plain `std::string` that default-constructs empty. -/
structure SignalSubscriber where
  signalName : String
  interfaceName : String

/-- SignalSubscriber constructor: stores the signal name; `interfaceName_`
is default-constructed empty. -/
def SignalSubscriber.construct (signalName : String) : SignalSubscriber :=
  { signalName := signalName, interfaceName := "" }

/-- SignalSubscriber::onInterface: `interfaceName_ = std::move(interfaceName)`. -/
def SignalSubscriber.onInterface (s : SignalSubscriber) (interfaceName : String) :
    SignalSubscriber :=
  { s with interfaceName := interfaceName }

/-- Assertion guarding SignalSubscriber::call: `assert(!interfaceName_.empty())`. -/
def SignalSubscriber.callAssert (s : SignalSubscriber) : Bool :=
  !s.interfaceName.isEmpty

/-! ### Assertion bookkeeping for MethodInvoker and SignalEmitter -/

/-- Assertion tripped by a member-function call on a `MethodInvoker` in the
given state (`true` means the call has no assertion or the assertion holds). -/
def MethodInvoker.stepAssert (m : MethodInvoker) : MIStep → Bool
  | .onInterface _ => true
  | .withTimeoutUsec _ => true
  | .withTimeoutChrono _ _ _ => true
  | .withArguments => m.withArgumentsAssert
  | .dontExpectReply => m.dontExpectReplyAssert
  | .storeResultsTo => m.storeResultsToAssert

/-- All assertions along a call sequence on a `MethodInvoker` hold. -/
def MethodInvoker.allAsserts : MethodInvoker → List MIStep → Bool
  | _, [] => true
  | m, s :: ss => m.stepAssert s && MethodInvoker.allAsserts (m.step s).1 ss

/-- Assertion tripped by a member-function call on a `SignalEmitter`. -/
def SignalEmitter.stepAssert (e : SignalEmitter) : SEStep → Bool
  | .onInterface _ => true
  | .withArguments => e.withArgumentsAssert

/-- All assertions along a call sequence on a `SignalEmitter` hold. -/
def SignalEmitter.allAsserts : SignalEmitter → List SEStep → Bool
  | _, [] => true
  | e, s :: ss => e.stepAssert s && SignalEmitter.allAsserts (e.step s) ss

theorem MethodInvoker.step_methodValid (m : MethodInvoker) (s : MIStep)
    (h : m.methodValid = true) : (m.step s).1.methodValid = true := by
  cases s <;>
    simp [MethodInvoker.step, MethodInvoker.onInterface, MethodInvoker.withTimeout,
      MethodInvoker.withTimeoutChrono, MethodInvoker.withArguments,
      MethodInvoker.dontExpectReply, MethodInvoker.storeResultsTo, h]

theorem MethodInvoker.allAsserts_of_valid (steps : List MIStep) (m : MethodInvoker)
    (h : m.methodValid = true) : m.allAsserts steps = true := by
  induction steps generalizing m with
  | nil => rfl
  | cons s ss ih =>
    rw [MethodInvoker.allAsserts]
    have hstep : m.stepAssert s = true := by
      cases s <;>
        simp [MethodInvoker.stepAssert, MethodInvoker.withArgumentsAssert,
          MethodInvoker.dontExpectReplyAssert, MethodInvoker.storeResultsToAssert, h]
    rw [hstep, ih _ (MethodInvoker.step_methodValid m s h)]
    rfl

theorem AsyncMethodInvoker.step_methodValid_async (a : AsyncMethodInvoker) (s : AMIStep)
    (h : a.methodValid = true) : (a.step s).methodValid = true := by
  cases s <;>
    simp [AsyncMethodInvoker.step, AsyncMethodInvoker.onInterface,
      AsyncMethodInvoker.withTimeout, AsyncMethodInvoker.withTimeoutChrono, h]

theorem AsyncMethodInvoker.allAsserts_of_valid_async (steps : List AMIStep) (a : AsyncMethodInvoker)
    (h : a.methodValid = true) : a.allAsserts steps = true := by
  induction steps generalizing a with
  | nil => rfl
  | cons s ss ih =>
    rw [AsyncMethodInvoker.allAsserts]
    have hstep : a.stepAssert s = true := by
      cases s <;>
        simp [AsyncMethodInvoker.stepAssert, AsyncMethodInvoker.withArgumentsAssert,
          AsyncMethodInvoker.uponReplyInvokeAssert, h]
    rw [hstep, ih _ (AsyncMethodInvoker.step_methodValid_async a s h)]
    rfl

theorem SignalEmitter.step_signalValid_emitter (e : SignalEmitter) (s : SEStep)
    (h : e.signalValid = true) : (e.step s).signalValid = true := by
  cases s <;>
    simp [SignalEmitter.step, SignalEmitter.onInterface, SignalEmitter.withArguments, h]

theorem SignalEmitter.allAsserts_of_valid_emitter (steps : List SEStep) (e : SignalEmitter)
    (h : e.signalValid = true) : e.allAsserts steps = true := by
  induction steps generalizing e with
  | nil => rfl
  | cons s ss ih =>
    rw [SignalEmitter.allAsserts]
    have hstep : e.stepAssert s = true := by
      cases s <;> simp [SignalEmitter.stepAssert, SignalEmitter.withArgumentsAssert, h]
    rw [hstep, ih _ (SignalEmitter.step_signalValid_emitter e s h)]
    rfl

end sdbus

/-- C3: for every MethodInvoker, the method call is committed at most once:
once the terminal step `storeResultsTo` has run, the destructor does not call
the method again; if no terminal step ran and the in-flight exception count
at destruction equals the count at construction, the destructor commits the
call exactly once (fire-and-forget); if an additional exception is
propagating, the destructor does not commit. -/
theorem C3_method_invoker_commits_at_most_once
    (methodName : String) (uncaughtAtCtor : Nat) (steps : List sdbus.MIStep)
    (uncaughtAtDtor : Nat) :
    let m := (sdbus.MethodInvoker.runSteps
      (sdbus.MethodInvoker.construct methodName uncaughtAtCtor) steps).1
    (sdbus.MIStep.storeResultsTo ∈ steps → m.destruct uncaughtAtDtor = [])
  ∧ (sdbus.MIStep.storeResultsTo ∉ steps → uncaughtAtDtor = uncaughtAtCtor →
        m.destruct uncaughtAtDtor = [sdbus.MethodCommit.callMethod m.timeout])
  ∧ (uncaughtAtDtor ≠ uncaughtAtCtor → m.destruct uncaughtAtDtor = []) := by
  intro m
  have hexc : m.exceptions = uncaughtAtCtor := by
    show (sdbus.MethodInvoker.runSteps _ steps).1.exceptions = _
    rw [sdbus.MethodInvoker.runSteps_exceptions]
    rfl
  have hcalled : m.methodCalled = true ↔ sdbus.MIStep.storeResultsTo ∈ steps := by
    show (sdbus.MethodInvoker.runSteps _ steps).1.methodCalled = true ↔ _
    rw [sdbus.MethodInvoker.runSteps_methodCalled]
    simp [sdbus.MethodInvoker.construct]
  refine ⟨fun h => ?_, fun h1 h2 => ?_, fun h => ?_⟩
  · rw [sdbus.MethodInvoker.destruct]
    simp [hcalled.mpr h]
  · have hmc : m.methodCalled = false := by
      cases hb : m.methodCalled
      · rfl
      · exact absurd (hcalled.mp hb) h1
    rw [sdbus.MethodInvoker.destruct, hexc]
    simp [hmc, h2]
  · rw [sdbus.MethodInvoker.destruct, hexc]
    simp [h]

/-- Witness for C3 at concrete inputs: a trace with `storeResultsTo` followed
by a clean destruction commits nothing in the destructor; a trace without a
terminal step commits exactly once on clean destruction (with the default
zero timeout); destruction while an extra exception is in flight commits
nothing. -/
theorem C3_method_invoker_commits_at_most_once_witness :
    ((sdbus.MethodInvoker.runSteps (sdbus.MethodInvoker.construct "Multiply" 0)
        [sdbus.MIStep.onInterface "org.example", sdbus.MIStep.storeResultsTo]).1.destruct 0 = [])
  ∧ ((sdbus.MethodInvoker.runSteps (sdbus.MethodInvoker.construct "Multiply" 0)
        [sdbus.MIStep.onInterface "org.example"]).1.destruct 0
      = [sdbus.MethodCommit.callMethod
          ((sdbus.MethodInvoker.runSteps (sdbus.MethodInvoker.construct "Multiply" 0)
            [sdbus.MIStep.onInterface "org.example"]).1.timeout)])
  ∧ ((sdbus.MethodInvoker.runSteps (sdbus.MethodInvoker.construct "Multiply" 0)
        [sdbus.MIStep.onInterface "org.example"]).1.destruct 1 = []) :=
  ⟨(C3_method_invoker_commits_at_most_once "Multiply" 0
      [sdbus.MIStep.onInterface "org.example", sdbus.MIStep.storeResultsTo] 0).1
        (by simp),
   (C3_method_invoker_commits_at_most_once "Multiply" 0
      [sdbus.MIStep.onInterface "org.example"] 0).2.1 (by simp) rfl,
   (C3_method_invoker_commits_at_most_once "Multiply" 0
      [sdbus.MIStep.onInterface "org.example"] 1).2.2 (by decide)⟩

/-- C8: every parameter or terminal step invoked before `onInterface` (i.e.
with an invalid message, resp. unset interface name) trips its debug
assertion; and when `onInterface` is called first, the assertions in
`withArguments`, `storeResultsTo`, `dontExpectReply` and the terminal async
steps hold along any subsequent call sequence (the assertion-failure branch
is unreachable). -/
theorem C8_onInterface_first_assertion_discipline :
    (∀ methodName : String, ∀ u : Nat,
        (sdbus.MethodInvoker.construct methodName u).withArgumentsAssert = false
      ∧ (sdbus.MethodInvoker.construct methodName u).storeResultsToAssert = false
      ∧ (sdbus.MethodInvoker.construct methodName u).dontExpectReplyAssert = false)
  ∧ (∀ methodName : String,
        (sdbus.AsyncMethodInvoker.construct methodName).withArgumentsAssert = false
      ∧ (sdbus.AsyncMethodInvoker.construct methodName).uponReplyInvokeAssert = false)
  ∧ (∀ signalName : String, ∀ u : Nat,
        (sdbus.SignalEmitter.construct signalName u).withArgumentsAssert = false)
  ∧ (∀ signalName : String,
        (sdbus.SignalSubscriber.construct signalName).callAssert = false)
  ∧ (∀ methodName : String, ∀ u : Nat, ∀ interfaceName : String,
      ∀ rest : List sdbus.MIStep,
        sdbus.MethodInvoker.allAsserts (sdbus.MethodInvoker.construct methodName u)
          (sdbus.MIStep.onInterface interfaceName :: rest) = true)
  ∧ (∀ methodName : String, ∀ interfaceName : String, ∀ rest : List sdbus.AMIStep,
        sdbus.AsyncMethodInvoker.allAsserts (sdbus.AsyncMethodInvoker.construct methodName)
          (sdbus.AMIStep.onInterface interfaceName :: rest) = true)
  ∧ (∀ signalName : String, ∀ u : Nat, ∀ interfaceName : String,
      ∀ rest : List sdbus.SEStep,
        sdbus.SignalEmitter.allAsserts (sdbus.SignalEmitter.construct signalName u)
          (sdbus.SEStep.onInterface interfaceName :: rest) = true) := by
  refine ⟨fun _ _ => ⟨rfl, rfl, rfl⟩, fun _ => ⟨rfl, rfl⟩, fun _ _ => rfl, fun _ => rfl,
    fun name u iface rest => ?_, fun name iface rest => ?_, fun name u iface rest => ?_⟩
  · rw [sdbus.MethodInvoker.allAsserts]
    rw [sdbus.MethodInvoker.allAsserts_of_valid rest _ rfl]
    rfl
  · rw [sdbus.AsyncMethodInvoker.allAsserts]
    rw [sdbus.AsyncMethodInvoker.allAsserts_of_valid_async rest _ rfl]
    rfl
  · rw [sdbus.SignalEmitter.allAsserts]
    rw [sdbus.SignalEmitter.allAsserts_of_valid_emitter rest _ rfl]
    rfl

/-- C10 (amended): for every chrono duration (count ticks of period num/den
seconds, den positive) passed to `MethodInvoker::withTimeout` or
`AsyncMethodInvoker::withTimeout`, the stored timeout equals the duration
converted to whole microseconds truncated toward zero (characterized by the
division bounds below) *reduced modulo 2^64* by the int64-to-uint64
conversion at the `uint64_t usec` parameter; when the truncated count is
nonnegative and below 2^64 the stored timeout is the truncation itself; in
particular every positive duration shorter than one microsecond yields a
stored timeout of 0, leaving a freshly constructed invoker in exactly the
state it has when no timeout is set at all. -/
theorem C10_with_timeout_truncates_toward_zero
    (m : sdbus.MethodInvoker) (a : sdbus.AsyncMethodInvoker)
    (methodName : String) (uncaughtAtCtor : Nat)
    (count num den : Int) (hden : 0 < den) :
    let micros := count * num * 1000000
    let r := sdbus.durationToMicroseconds count num den
    ((m.withTimeoutChrono count num den).timeout = sdbus.toUInt64Wrap r)
  ∧ ((a.withTimeoutChrono count num den).timeout = sdbus.toUInt64Wrap r)
  ∧ (0 ≤ micros → den * r ≤ micros ∧ micros < den * (r + 1))
  ∧ (micros ≤ 0 → den * (r - 1) < micros ∧ micros ≤ den * r)
  ∧ (0 ≤ micros → r < sdbus.uint64Mod → (m.withTimeoutChrono count num den).timeout = r)
  ∧ (0 < micros → micros < den →
        r = 0
      ∧ sdbus.MethodInvoker.withTimeoutChrono
            (sdbus.MethodInvoker.construct methodName uncaughtAtCtor) count num den
          = sdbus.MethodInvoker.construct methodName uncaughtAtCtor) := by
  intro micros r
  have hden0 : den ≠ 0 := ne_of_gt hden
  have hbounds_nonneg : ∀ k : Int, 0 ≤ k → den * (k.tdiv den) ≤ k ∧ k < den * (k.tdiv den + 1) := by
    intro k hk
    rw [Int.tdiv_eq_ediv hk (le_of_lt hden)]
    have hid : k % den + den * (k / den) = k := Int.emod_add_ediv k den
    have hm0 : 0 ≤ k % den := Int.emod_nonneg k hden0
    have hm1 : k % den < den := Int.emod_lt_of_pos k hden
    constructor
    · linarith
    · have : den * (k / den + 1) = den * (k / den) + den := by ring
      linarith
  have hzero : 0 < micros → micros < den → r = 0 := by
    intro h1 h2
    show (count * num * 1000000).tdiv den = 0
    rw [Int.tdiv_eq_ediv (le_of_lt h1) (le_of_lt hden)]
    exact Int.ediv_eq_zero_of_lt (le_of_lt h1) h2
  refine ⟨rfl, rfl, fun h => hbounds_nonneg micros h, fun h => ?_, fun hmic hrlt => ?_,
    fun h1 h2 => ?_⟩
  · have hneg : (0 : Int) ≤ -micros := by linarith
    have hb := hbounds_nonneg (-micros) hneg
    have hrdef : r = -((-micros).tdiv den) := by
      show (count * num * 1000000).tdiv den = _
      rw [← Int.neg_tdiv, neg_neg]
    rcases hb with ⟨hb1, hb2⟩
    constructor
    · have : den * (r - 1) = -(den * ((-micros).tdiv den + 1)) := by rw [hrdef]; ring
      linarith
    · have : den * r = -(den * ((-micros).tdiv den)) := by rw [hrdef]; ring
      linarith
  · have hr0 : 0 ≤ r := Int.tdiv_nonneg hmic (le_of_lt hden)
    show r % sdbus.uint64Mod = r
    exact Int.emod_eq_of_lt hr0 hrlt
  · refine ⟨hzero h1 h2, ?_⟩
    show sdbus.MethodInvoker.withTimeout _ r = _
    rw [hzero h1 h2]
    simp [sdbus.MethodInvoker.withTimeout, sdbus.toUInt64Wrap, sdbus.MethodInvoker.construct]

/-- Witness for C10 at concrete inputs: a 2.5-millisecond duration (2500
ticks of period 1/10^6 s) stores 2500 microseconds unwrapped; a
500-nanosecond duration (500 ticks of period 1/10^9 s) truncates to 0 and
leaves a fresh MethodInvoker unchanged; a −2-microsecond duration stores the
truncated count reduced modulo 2^64. -/
theorem C10_with_timeout_truncates_toward_zero_witness :
    ((sdbus.MethodInvoker.withTimeoutChrono
        (sdbus.MethodInvoker.construct "Multiply" 0) 2500 1 1000000).timeout = 2500)
  ∧ sdbus.durationToMicroseconds 500 1 1000000000 = 0
  ∧ sdbus.MethodInvoker.withTimeoutChrono
        (sdbus.MethodInvoker.construct "Multiply" 0) 500 1 1000000000
      = sdbus.MethodInvoker.construct "Multiply" 0
  ∧ ((sdbus.MethodInvoker.withTimeoutChrono
        (sdbus.MethodInvoker.construct "Multiply" 0) (-2) 1 1000000).timeout
      = sdbus.toUInt64Wrap (sdbus.durationToMicroseconds (-2) 1 1000000)) :=
  ⟨by
      have h := (C10_with_timeout_truncates_toward_zero
        (sdbus.MethodInvoker.construct "Multiply" 0)
        (sdbus.AsyncMethodInvoker.construct "Multiply")
        "Multiply" 0 2500 1 1000000 (by decide)).2.2.2.2.1 (by decide) (by decide)
      rw [h]
      decide,
   ((C10_with_timeout_truncates_toward_zero
        (sdbus.MethodInvoker.construct "Multiply" 0)
        (sdbus.AsyncMethodInvoker.construct "Multiply")
        "Multiply" 0 500 1 1000000000 (by decide)).2.2.2.2.2
      (by decide) (by decide)).1,
   ((C10_with_timeout_truncates_toward_zero
        (sdbus.MethodInvoker.construct "Multiply" 0)
        (sdbus.AsyncMethodInvoker.construct "Multiply")
        "Multiply" 0 500 1 1000000000 (by decide)).2.2.2.2.2
      (by decide) (by decide)).2,
   (C10_with_timeout_truncates_toward_zero
        (sdbus.MethodInvoker.construct "Multiply" 0)
        (sdbus.AsyncMethodInvoker.construct "Multiply")
        "Multiply" 0 (-2) 1 1000000 (by decide)).1⟩

/-- Counterexample to C10 as originally stated: for the −2-microsecond
duration (count −2 of period 1/10^6 s), `duration_cast<microseconds>`
truncates to −2, but the timeout the program stores is the wrapped
`uint64_t` value 2^64 − 2 = 18446744073709551614, not the truncated value:
the int64-to-uint64 conversion at the `withTimeout(uint64_t)` boundary
wraps negative microsecond counts modulo 2^64. -/
theorem C10_negative_duration_wrap_counterexample :
    sdbus.durationToMicroseconds (-2) 1 1000000 = -2
  ∧ ((sdbus.MethodInvoker.withTimeoutChrono
        (sdbus.MethodInvoker.construct "Multiply" 0) (-2) 1 1000000).timeout
      = 18446744073709551614)
  ∧ ¬ ((sdbus.MethodInvoker.withTimeoutChrono
        (sdbus.MethodInvoker.construct "Multiply" 0) (-2) 1 1000000).timeout
      = sdbus.durationToMicroseconds (-2) 1 1000000) :=
  ⟨by decide, by decide, by decide⟩

namespace sdbus

/-! ## Signal and reply handler lambdas

The handlers are parametric in the tuple type `α` of the callback's declared
input arguments (`tuple_of_function_input_arg_types_t<_Function>` in the
source).  Reading the message into the tuple (`reply >> args`,
`signal >> signalArgs`) is represented by a `DeserOutcome α`.

Modelled from the spec: the message extraction operator `operator>>` on the
argument tuple lives in Message.h, which is not under src/; following the
spec ("the error-taking variant receives the error and the
(default-initialized) argument tuple"), extraction is modelled as
all-or-nothing: on failure it throws `sdbus::Error` and the tuple keeps its
default-initialized value. -/

/-- Outcome of deserializing a message payload into the argument tuple. -/
inductive DeserOutcome (α : Type) where
  | ok (val : α)
  | fail (e : Error)

/-- Result of running a handler lambda: the list of invocations of the user
callback that it performs (for the error-taking shapes, the `const Error*`
argument paired with the argument tuple), together with the exception
escaping the lambda, if any. -/
abbrev HandlerRun (κ : Type) := List κ × Option Error

/-- Lambda registered by SignalSubscriber::call for a *pure* callback
(`has_error_param_v<_Function>` false), transcribing the `else` branch of
the source: a default-initialized tuple is filled by `signal >> signalArgs`
with no surrounding try-block, then the callback is applied; a
deserialization failure therefore escapes the lambda and the callback is
not invoked. -/
def pureSignalHandler (α : Type) (_defaultArgs : α) (deser : DeserOutcome α) :
    HandlerRun α :=
  match deser with
  | .ok v => ([v], none)
  | .fail e => ([], some e)

/-- Lambda registered by SignalSubscriber::call for an *error-taking*
callback (`has_error_param_v<_Function>` true), transcribing the
`if constexpr` branch of the source: `signal >> signalArgs` runs inside a
try-block; on failure the callback is applied to the error address and the
(default-initialized) tuple and the lambda returns; on success the callback
is applied to a null error and the deserialized tuple. -/
def errorSignalHandler (α : Type) (defaultArgs : α) (deser : DeserOutcome α) :
    HandlerRun (Option Error × α) :=
  match deser with
  | .ok v => ([(none, v)], none)
  | .fail e => ([(some e, defaultArgs)], none)

/-- Modelled from the spec: the proxy's signal-dispatch machinery
(Proxy implementation, not under src/) invokes the registered handler and
catches an `sdbus::Error` escaping it, dropping the signal silently, so that
"the failure is ignored (and signal simply dropped)" and no error propagates
up the message loop call stack.  It forwards the callback invocations the
handler performed and propagates nothing. -/
def dispatchSignal {κ : Type} (handlerRun : HandlerRun κ) : HandlerRun κ :=
  (handlerRun.1, none)

/-- Reply handler lambda built by AsyncMethodInvoker::uponReplyInvoke,
transcribing the source: a default-initialized argument tuple; if the
incoming error pointer is null, `reply >> args` runs inside a try-block
whose catch applies the callback to the deserialization error and the tuple
and returns; otherwise (or on success) the callback is applied to the
incoming error pointer and the tuple. -/
def asyncReplyHandler (α : Type) (defaultArgs : α) (error : Option Error)
    (deser : DeserOutcome α) : HandlerRun (Option Error × α) :=
  match error with
  | none =>
    match deser with
    | .ok v => ([(none, v)], none)
    | .fail e => ([(some e, defaultArgs)], none)
  | some e => ([(some e, defaultArgs)], none)

/-! ### getResultAsFuture -/

/-- Model of `std::tuple<T...>` as a type: right-nested products ending in
`PUnit`. -/
def tupleOfTypes : List Type → Type
  | [] => PUnit
  | t :: ts => t × tupleOfTypes ts

/-- future_return of TypeTraits.h: the primary template maps a parameter
pack to `std::tuple<_Args...>`, the empty specialization to `void`
(modelled as `PUnit`), and the single-type specialization to that type. -/
def future_return : List Type → Type
  | [] => PUnit
  | [t] => t
  | t1 :: t2 :: ts => tupleOfTypes (t1 :: t2 :: ts)

/-- Final state of the `std::promise`/`std::future` pair used by
getResultAsFuture: either satisfied with a value or resolved to the failure
state carrying an error. -/
inductive FutureOutcome (τ : Type) where
  | value (v : τ)
  | failure (e : Error)

/-- Callback that AsyncMethodInvoker::getResultAsFuture passes to
uponReplyInvoke, transcribing the source: on a null error the promise is
satisfied with the value built from the received arguments (`set_value()`
for the void case, `set_value({std::move(args)...})` otherwise, both
represented by `mk`); on a non-null error the promise is resolved to the
failure state carrying that error (`set_exception`). -/
def getResultCallback {α τ : Type} (mk : α → τ) (error : Option Error) (args : α) :
    FutureOutcome τ :=
  match error with
  | none => FutureOutcome.value (mk args)
  | some e => FutureOutcome.failure e

/-- End-to-end behaviour of getResultAsFuture: the reply handler built by
uponReplyInvoke runs with the promise-setting callback; the result is the
list of promise resolutions performed. -/
def getResultAsFutureOutcomes {α τ : Type} (mk : α → τ) (defaultArgs : α)
    (error : Option Error) (deser : DeserOutcome α) : List (FutureOutcome τ) :=
  (asyncReplyHandler α defaultArgs error deser).1.map (fun c => getResultCallback mk c.1 c.2)

end sdbus

/-- C1: for every pure-variant signal handler registered through
SignalSubscriber::call, a deserialization error while reading the signal
message makes the signal silently dropped: the user callback is not invoked,
and no error propagates out into the dispatch loop (the escaping
`sdbus::Error` is swallowed by the dispatch machinery); a successfully
deserialized signal invokes the callback exactly once. -/
theorem C1_pure_signal_handler_drops_on_deserialization_error :
    (∀ (α : Type) (defaultArgs : α) (e : sdbus.Error),
        sdbus.dispatchSignal (sdbus.pureSignalHandler α defaultArgs (.fail e)) = ([], none))
  ∧ (∀ (α : Type) (defaultArgs : α) (v : α),
        sdbus.dispatchSignal (sdbus.pureSignalHandler α defaultArgs (.ok v)) = ([v], none))
  ∧ (∀ (α : Type) (defaultArgs : α) (e : sdbus.Error),
        sdbus.errorSignalHandler α defaultArgs (.fail e)
          = ([(some e, defaultArgs)], none)) := by
  exact ⟨fun _ _ _ => rfl, fun _ _ _ => rfl, fun _ _ _ => rfl⟩

/-- C4: every invocation of the reply handler built by
AsyncMethodInvoker::uponReplyInvoke invokes the user callback exactly once —
with a null error and the deserialized tuple on success, with the
deserialization error and the default-initialized tuple when reading the
reply fails, and with the remote error passed through directly (and the
default-initialized tuple) when the reply carries an error — and no
deserialization error ever escapes the reply handler into the dispatch
loop. -/
theorem C4_reply_handler_invokes_callback_exactly_once :
    (∀ (α : Type) (defaultArgs : α) (error : Option sdbus.Error)
        (deser : sdbus.DeserOutcome α),
        (sdbus.asyncReplyHandler α defaultArgs error deser).1.length = 1
      ∧ (sdbus.asyncReplyHandler α defaultArgs error deser).2 = none)
  ∧ (∀ (α : Type) (defaultArgs : α) (v : α),
        sdbus.asyncReplyHandler α defaultArgs none (.ok v) = ([(none, v)], none))
  ∧ (∀ (α : Type) (defaultArgs : α) (e : sdbus.Error),
        sdbus.asyncReplyHandler α defaultArgs none (.fail e)
          = ([(some e, defaultArgs)], none))
  ∧ (∀ (α : Type) (defaultArgs : α) (e : sdbus.Error) (deser : sdbus.DeserOutcome α),
        sdbus.asyncReplyHandler α defaultArgs (some e) deser
          = ([(some e, defaultArgs)], none)) := by
  refine ⟨fun α d error deser => ?_, fun _ _ _ => rfl, fun _ _ _ => rfl, fun _ _ _ _ => rfl⟩
  cases error with
  | none => cases deser <;> exact ⟨rfl, rfl⟩
  | some e => exact ⟨rfl, rfl⟩

/-- C7: `AsyncMethodInvoker::getResultAsFuture<Args...>()` yields a future
whose satisfied value type is void (`PUnit`) for an empty `Args`, the single
type for a one-element `Args`, and the tuple of `Args` otherwise; the
promise is satisfied with the reply values when the reply handler receives
no error, and resolved to the failure state carrying the error when a remote
or deserialization error is received. -/
theorem C7_get_result_as_future_value_and_error_delivery :
    sdbus.future_return [] = PUnit
  ∧ (∀ t : Type, sdbus.future_return [t] = t)
  ∧ (∀ (t1 t2 : Type) (ts : List Type),
        sdbus.future_return (t1 :: t2 :: ts) = sdbus.tupleOfTypes (t1 :: t2 :: ts))
  ∧ (∀ (α τ : Type) (mk : α → τ) (defaultArgs : α) (v : α),
        sdbus.getResultAsFutureOutcomes mk defaultArgs none (.ok v)
          = [sdbus.FutureOutcome.value (mk v)])
  ∧ (∀ (α τ : Type) (mk : α → τ) (defaultArgs : α) (e : sdbus.Error),
        sdbus.getResultAsFutureOutcomes mk defaultArgs none (.fail e)
          = [sdbus.FutureOutcome.failure e])
  ∧ (∀ (α τ : Type) (mk : α → τ) (defaultArgs : α) (e : sdbus.Error)
        (deser : sdbus.DeserOutcome α),
        sdbus.getResultAsFutureOutcomes mk defaultArgs (some e) deser
          = [sdbus.FutureOutcome.failure e]) := by
  refine ⟨rfl, fun _ => rfl, fun _ _ _ => rfl, fun _ _ _ _ _ => rfl, fun _ _ _ _ _ => rfl,
    fun α τ mk d e deser => ?_⟩
  cases deser <;> rfl
